import Mathlib

/-!
Verification of the Apirate module contract and execution pipeline.

The repository ships the plugin interface `src/Apirate/IModule.h` (pure virtual
declarations with doc comments).  The behavioural contract of the operations and
of the ExecutionProcess that drives them is stated in the specification; the
headers it consumes (eModule.h, IQuery.h, IExecutionProcess.h, IClient.h,
ILogger.h, IConfiguration.h, ISocket.h) are not part of the sources.  Hence the
state of a module instance and the registry/pipeline algorithms are modelled
from the specification's words, while signatures, default values (port 80) and
the `const` qualifier on `listen` come directly from `IModule.h`.
-/

namespace Apirate

/-- Modelled from the spec: `eModule` (the header eModule.h is missing from the
sources) is an enumerated phase/type tag; phases have a fixed, declared order.
Three tags suffice for every claim. -/
inductive eModule where
  | A
  | B
  | C
deriving DecidableEq, Repr

/-- Modelled from the spec: the fixed, declared order of the pipeline phases. -/
def phaseOrder : List eModule := [eModule.A, eModule.B, eModule.C]

/-- Modelled from the spec: `IQuery` (header missing from the sources) is an
opaque payload; only copy/transform semantics are used, so a wrapped natural
number suffices. -/
structure IQuery where
  payload : Nat
deriving DecidableEq, Repr

/-- Modelled from the spec: the state of a module instance behind the `IModule`
interface of src/Apirate/IModule.h.  `name`, `priority`, `version` and
`moduleCategory` back the four getters (priority and version are C++ floats
used only through their total order, modelled as integers); `initResult` is the
status code `init` returns; `listenReq` is the module's requested
(port, socket-builder) pair, `none` meaning no dedicated listener;
`run` is the module-defined in-category query transformation used by `exec`
(`none` models a null IQuery*); `id` models object identity; `attachedTo` is the
back-reference to the attached ExecutionProcess and `client` the bound
per-connection context, both modelled as numeric handles. -/
structure IModule where
  name : String
  priority : Int
  version : Int
  moduleCategory : eModule
  initResult : Int
  listenReq : Option (Nat × Nat)
  run : IQuery → Option IQuery
  id : Nat
  attachedTo : Option Nat
  client : Option Nat

/-- Getter for the module's name (IModule::getName). -/
def IModule.getName (m : IModule) : String := m.name

/-- Getter for the module's priority (IModule::getPriority). -/
def IModule.getPriority (m : IModule) : Int := m.priority

/-- Getter for the module's version (IModule::getVersion). -/
def IModule.getVersion (m : IModule) : Int := m.version

/-- Getter for the module's type (IModule::getModuleType). -/
def IModule.getModuleType (m : IModule) : eModule := m.moduleCategory

/-- Modelled from the spec: IModule::listen (src gives only the signature
`socketBuilder listen(unsigned short& port) const`).  A module wanting a
dedicated listener overwrites the by-reference port with its requested port
and returns a non-null socket builder; otherwise it leaves the port unchanged
and returns null.  The result pairs the final value of the port argument with
the optional builder. -/
def IModule.listen (m : IModule) (port : Nat) : Nat × Option Nat :=
  match m.listenReq with
  | none => (port, none)
  | some rf => (rf.1, some rf.2)

/-- From the source: `listen` is declared `const`, so a call leaves the
receiver unchanged; the call is modelled as returning the receiver next to
the result of `IModule.listen`. -/
def listenCall (m : IModule) (port : Nat) : IModule × (Nat × Option Nat) :=
  (m, m.listen port)

/-- Modelled from the spec: IModule::exec (src gives only the signature).
A module invoked outside its own moduleCategory treats the call as a no-op
and returns the input query unchanged; within its own category it applies its
transformation, where `none` models the null result that aborts the
pipeline. -/
def IModule.exec (m : IModule) (state : eModule) (q : IQuery) : Option IQuery :=
  if state = m.moduleCategory then m.run q else some q

/-- Modelled from the spec: IModule::attachModule (src gives only the
signature).  Attaching an instance already attached to the same process is a
no-op; otherwise the call establishes the back-reference to the process. -/
def attachModule (m : IModule) (proc : Nat) : IModule :=
  if m.attachedTo = some proc then m else { m with attachedTo := some proc }

/-- Modelled from the spec: IModule::detachModule (src gives only the
signature).  Detaching an instance that is not attached to the given process
is a no-op; otherwise the call clears the back-reference. -/
def detachModule (m : IModule) (proc : Nat) : IModule :=
  if m.attachedTo = some proc then { m with attachedTo := none } else m

/-- Modelled from the spec: IModule::setClient (src gives only the signature).
Binds the per-connection context; calling it again rebinds (last write
wins). -/
def setClient (m : IModule) (c : Nat) : IModule :=
  { m with client := some c }

/-- Modelled from the spec: IModule::clone (src gives only the signature).
Produces an independent instance with the same name, priority, version and
category, a fresh identity, no inherited attachment and no inherited client
binding. -/
def cloneModule (m : IModule) (freshId : Nat) : IModule :=
  { name := m.name, priority := m.priority, version := m.version,
    moduleCategory := m.moduleCategory, initResult := m.initResult,
    listenReq := m.listenReq, run := m.run, id := freshId,
    attachedTo := none, client := none }

/-- Modelled from the spec: stable insertion of a module into a list already
sorted by ascending priority; an incoming module goes after every module of
priority less than or equal to its own, so ties keep registration order. -/
def insertByPriority (m : IModule) : List IModule → List IModule
  | [] => [m]
  | x :: xs =>
    if m.priority < x.priority then m :: x :: xs else x :: insertByPriority m xs

/-- Modelled from the spec: sort the attached instances of one phase by
ascending priority, ties broken by registration order (stable sort of the
registration-ordered list). -/
def sortByPriority (l : List IModule) : List IModule :=
  l.foldl (fun acc m => insertByPriority m acc) []

/-- Modelled from the spec: the dispatch plan of the ExecutionProcess (the
ExecutionProcess implementation is missing from the sources).  Phases are
taken in their fixed declared order; within each phase the attached instances
whose moduleCategory equals the phase, sorted by priority with ties by
registration order, each paired with the phase tag passed to `exec`. -/
def phasePlan (phases : List eModule) (attached : List IModule) :
    List (eModule × IModule) :=
  phases.flatMap fun ph =>
    (sortByPriority (attached.filter fun m => m.moduleCategory == ph)).map
      fun m => (ph, m)

/-- Modelled from the spec: run the exec calls of a dispatch plan, feeding each
result into the next call; a null result aborts the whole query cycle. -/
def runPlan : List (eModule × IModule) → IQuery → Option IQuery
  | [], q => some q
  | s :: rest, q =>
    match s.2.exec s.1 q with
    | none => none
    | some q2 => runPlan rest q2

/-- Modelled from the spec: the trace of exec calls a dispatch plan performs,
as (module name, input query) pairs; after a null result no further module is
invoked. -/
def tracePlan : List (eModule × IModule) → IQuery → List (String × IQuery)
  | [], _ => []
  | s :: rest, q =>
    (s.2.name, q) ::
      match s.2.exec s.1 q with
      | none => []
      | some q2 => tracePlan rest q2

/-- Modelled from the spec: per-query dispatch of the ExecutionProcess for one
connection, over the attached instances in registration order. -/
def dispatchQuery (phases : List eModule) (attached : List IModule)
    (q : IQuery) : Option IQuery :=
  runPlan (phasePlan phases attached) q

/-- Modelled from the spec: the sequence of exec calls per-query dispatch
performs. -/
def dispatchTrace (phases : List eModule) (attached : List IModule)
    (q : IQuery) : List (String × IQuery) :=
  tracePlan (phasePlan phases attached) q

/-- Modelled from the spec: the registry state the ExecutionProcess builds at
startup: the active prototypes, the registered (port, socket builder)
bindings, the names rejected with ConfigurationConflict, and the names of the
prototypes whose `listen` was called. -/
structure StartupState where
  active : List IModule
  bindings : List (Nat × Nat)
  conflicts : List String
  listenCalled : List String

/-- Modelled from the spec: one step of ExecutionProcess startup.  Call `init`;
a nonzero status excludes the prototype (no `listen` call).  On success call
`listen` with the default port 80; a null builder registers nothing; a
non-null builder for an unclaimed port registers the (port, builder) pair;
a duplicate port request is rejected with ConfigurationConflict and the
prototype is not registered. -/
def startupStep (st : StartupState) (p : IModule) : StartupState :=
  if p.initResult ≠ 0 then st
  else
    let st1 : StartupState :=
      { st with listenCalled := st.listenCalled ++ [p.name] }
    match (p.listen 80).2 with
    | none => { st1 with active := st1.active ++ [p] }
    | some f =>
      if st1.bindings.any (fun b => b.1 == (p.listen 80).1) then
        { st1 with conflicts := st1.conflicts ++ [p.name] }
      else
        { st1 with active := st1.active ++ [p],
                   bindings := st1.bindings ++ [((p.listen 80).1, f)] }

/-- Modelled from the spec: ExecutionProcess startup iterates the loaded
prototypes in registration order from an empty registry. -/
def startup (l : List IModule) : StartupState :=
  l.foldl startupStep { active := [], bindings := [], conflicts := [],
                        listenCalled := [] }

/-- Modelled from the spec: per-connection setup clones one instance per active
prototype (fresh identities counted from `fid`), attaches each clone to the
ExecutionProcess `proc` and binds the client context `c`. -/
def cloneAll (proc c : Nat) : Nat → List IModule → List IModule
  | _, [] => []
  | fid, p :: ps =>
    setClient (attachModule (cloneModule p fid) proc) c ::
      cloneAll proc c (fid + 1) ps

/-- Modelled from the spec: the module instances prepared for one accepted
connection, from the startup registry's active set. -/
def prepareConnection (st : StartupState) (proc c fid : Nat) : List IModule :=
  cloneAll proc c fid st.active

/-- Concrete module builder used by the witnesses: a prototype with the given
name, priority, category and in-category transformation, successful init, no
dedicated listener, identity 0, unattached, no client bound. -/
def mkModule (n : String) (pr : Int) (cat : eModule)
    (r : IQuery → Option IQuery) : IModule :=
  { name := n, priority := pr, version := 1, moduleCategory := cat,
    initResult := 0, listenReq := none, run := r, id := 0,
    attachedTo := none, client := none }

/-- Sample module of category A, priority 1, adding 1 to the payload. -/
def mA1 : IModule := mkModule "mA1" 1 eModule.A fun q => some ⟨q.payload + 1⟩

/-- Sample module of category A, priority 2, doubling the payload. -/
def mA2 : IModule := mkModule "mA2" 2 eModule.A fun q => some ⟨q.payload * 2⟩

/-- Sample module of category B, priority 1, adding 10 to the payload. -/
def mB1 : IModule := mkModule "mB1" 1 eModule.B fun q => some ⟨q.payload + 10⟩

/-- Sample module whose exec returns null in its own category. -/
def mAbort : IModule := mkModule "mAbort" 1 eModule.A fun _ => none

/-- Sample module attached to the ExecutionProcess with handle 1. -/
def mAtt : IModule :=
  { mkModule "mAtt" 1 eModule.A (fun q => some q) with attachedTo := some 1 }

/-- Sample unattached pass-through module. -/
def mPass : IModule := mkModule "mPass" 1 eModule.A fun q => some q

/-- Sample module whose init fails with status 5. -/
def mBadInit : IModule :=
  { mkModule "mBadInit" 1 eModule.A (fun q => some q) with initResult := 5 }

/-- Sample module requesting a dedicated listener on port 8080, builder 7. -/
def mListen1 : IModule :=
  { mkModule "mListen1" 1 eModule.A (fun q => some q) with
    listenReq := some (8080, 7) }

/-- Sample module also requesting port 8080, with builder 9. -/
def mListen2 : IModule :=
  { mkModule "mListen2" 2 eModule.B (fun q => some q) with
    listenReq := some (8080, 9) }

/-- Claim C2: for every module instance and query, invoking exec with a phase
tag different from the module's own moduleCategory returns the input query
unchanged and does not fail (non-null result). -/
theorem exec_pass_through (m : IModule) (state : eModule) (q : IQuery)
    (h : state ≠ m.moduleCategory) : m.exec state q = some q := by
  simp [IModule.exec, h]

/-- Witness for C2 at module mPass (category A), phase B, payload 5. -/
theorem exec_pass_through_witness :
    eModule.B ≠ mPass.moduleCategory ∧
    mPass.exec eModule.B ⟨5⟩ = some ⟨5⟩ :=
  ⟨by decide, exec_pass_through mPass eModule.B ⟨5⟩ (by decide)⟩

/-- Claim C4: attachModule and detachModule are idempotent; attaching an
instance already attached to the same process, or detaching an instance not
attached to that process (including a second detach after a successful one),
is a no-op returning the instance unchanged. -/
theorem attach_detach_idempotent (m m2 m3 : IModule) (p : Nat)
    (h : m.attachedTo = some p) (h2 : m2.attachedTo ≠ some p) :
    attachModule m p = m ∧
    detachModule m2 p = m2 ∧
    attachModule (attachModule m3 p) p = attachModule m3 p ∧
    detachModule (detachModule m3 p) p = detachModule m3 p := by
  refine ⟨by simp [attachModule, h], by simp [detachModule, h2], ?_, ?_⟩
  · by_cases h3 : m3.attachedTo = some p <;> simp [attachModule, h3]
  · by_cases h3 : m3.attachedTo = some p <;> simp [detachModule, h3]

/-- Witness for C4 at the attached module mAtt, the unattached module mPass
and process handle 1. -/
theorem attach_detach_idempotent_witness :
    mAtt.attachedTo = some 1 ∧ mPass.attachedTo ≠ some 1 ∧
    (attachModule mAtt 1 = mAtt ∧
     detachModule mPass 1 = mPass ∧
     attachModule (attachModule mAtt 1) 1 = attachModule mAtt 1 ∧
     detachModule (detachModule mAtt 1) 1 = detachModule mAtt 1) :=
  ⟨rfl, by decide, attach_detach_idempotent mAtt mPass mAtt 1 rfl (by decide)⟩

/-- Claim C5: clone produces an instance whose name, priority, version and
moduleCategory equal the prototype's, with a distinct identity, no attached
ExecutionProcess and no inherited client binding. -/
theorem clone_independent (m : IModule) (fid : Nat) (h : fid ≠ m.id) :
    (cloneModule m fid).getName = m.getName ∧
    (cloneModule m fid).getPriority = m.getPriority ∧
    (cloneModule m fid).getVersion = m.getVersion ∧
    (cloneModule m fid).getModuleType = m.getModuleType ∧
    (cloneModule m fid).id ≠ m.id ∧
    (cloneModule m fid).attachedTo = none ∧
    (cloneModule m fid).client = none :=
  ⟨rfl, rfl, rfl, rfl, h, rfl, rfl⟩

/-- Witness for C5: cloning mAtt (identity 0, attached to process 1, client
bound) with fresh identity 1. -/
theorem clone_independent_witness :
    (1 ≠ mAtt.id) ∧
    ((cloneModule mAtt 1).getName = mAtt.getName ∧
     (cloneModule mAtt 1).getPriority = mAtt.getPriority ∧
     (cloneModule mAtt 1).getVersion = mAtt.getVersion ∧
     (cloneModule mAtt 1).getModuleType = mAtt.getModuleType ∧
     (cloneModule mAtt 1).id ≠ mAtt.id ∧
     (cloneModule mAtt 1).attachedTo = none ∧
     (cloneModule mAtt 1).client = none) :=
  ⟨by decide, clone_independent mAtt 1 (by decide)⟩

/-- Claim C8: the attachment invariant.  attachModule establishes the
instance's back-reference to the target process; detachModule from the
attached process leaves it cleared; setClient leaves the relation untouched
and a clone starts detached (exec returns only a query, so in this model
attach and detach are the only operations that change the relation); the
back-reference holds at most one process at a time. -/
theorem attachment_back_reference (m : IModule) (p r c fid : Nat)
    (h : m.attachedTo = some p) :
    (attachModule m r).attachedTo = some r ∧
    (detachModule m p).attachedTo = none ∧
    (setClient m c).attachedTo = m.attachedTo ∧
    (cloneModule m fid).attachedTo = none ∧
    (m.attachedTo = some r → r = p) := by
  refine ⟨?_, by simp [detachModule, h], rfl, rfl, ?_⟩
  · by_cases h2 : m.attachedTo = some r <;> simp [attachModule, h2]
  · intro h2
    rw [h] at h2
    exact (Option.some.injEq _ _ ▸ h2).symm

/-- Witness for C8 at module mAtt (attached to process 1), re-attach target 2,
client 3, fresh identity 4. -/
theorem attachment_back_reference_witness :
    mAtt.attachedTo = some 1 ∧
    ((attachModule mAtt 2).attachedTo = some 2 ∧
     (detachModule mAtt 1).attachedTo = none ∧
     (setClient mAtt 3).attachedTo = mAtt.attachedTo ∧
     (cloneModule mAtt 4).attachedTo = none ∧
     (mAtt.attachedTo = some 2 → 2 = 1)) :=
  ⟨rfl, attachment_back_reference mAtt 1 2 3 4 rfl⟩

/-- Claim C10 (implicit, from the const qualifier on IModule::listen in the
source): a call to listen leaves the module's observable attributes
unchanged — getName, getPriority, getVersion and getModuleType return the
same values after the call as before. -/
theorem listen_const_frame (m : IModule) (port : Nat) :
    ((listenCall m port).1).getName = m.getName ∧
    ((listenCall m port).1).getPriority = m.getPriority ∧
    ((listenCall m port).1).getVersion = m.getVersion ∧
    ((listenCall m port).1).getModuleType = m.getModuleType :=
  ⟨rfl, rfl, rfl, rfl⟩

/-- Claim C1: dispatch walks the phases in declared order [A, B, C] and,
within a phase, the attached instances of that category by ascending
priority; with m1 (category A, priority 1), m2 (category A, priority 2) and
m3 (category B, priority 1) attached in this registration order, one query
executes m1, then m2, then m3, each exec receiving the query produced by the
previous one, and the cycle ends with m3's output. -/
theorem dispatch_phase_priority_order (m1 m2 m3 : IModule)
    (q0 q1 q2 q3 : IQuery)
    (hc1 : m1.moduleCategory = eModule.A) (hc2 : m2.moduleCategory = eModule.A)
    (hc3 : m3.moduleCategory = eModule.B)
    (hp1 : m1.priority = 1) (hp2 : m2.priority = 2) (hp3 : m3.priority = 1)
    (e1 : m1.run q0 = some q1) (e2 : m2.run q1 = some q2)
    (e3 : m3.run q2 = some q3) :
    dispatchTrace phaseOrder [m1, m2, m3] q0 =
      [(m1.name, q0), (m2.name, q1), (m3.name, q2)] ∧
    dispatchQuery phaseOrder [m1, m2, m3] q0 = some q3 := by
  have hAA : (eModule.A == eModule.A) = true := rfl
  have hAB : (eModule.A == eModule.B) = false := rfl
  have hAC : (eModule.A == eModule.C) = false := rfl
  have hBB : (eModule.B == eModule.B) = true := rfl
  have hBA : (eModule.B == eModule.A) = false := rfl
  have hBC : (eModule.B == eModule.C) = false := rfl
  have hplan : phasePlan phaseOrder [m1, m2, m3] =
      [(eModule.A, m1), (eModule.A, m2), (eModule.B, m3)] := by
    simp [phasePlan, phaseOrder, sortByPriority, insertByPriority,
          List.filter, hc1, hc2, hc3, hp1, hp2, hp3,
          hAA, hAB, hAC, hBB, hBA, hBC]
  constructor
  · rw [dispatchTrace, hplan]
    simp [tracePlan, IModule.exec, hc1, hc2, hc3, e1, e2, e3]
  · rw [dispatchQuery, hplan]
    simp [runPlan, IModule.exec, hc1, hc2, hc3, e1, e2, e3]

/-- Witness for C1 at the sample modules mA1, mA2, mB1 and payload 0: the
trace is mA1 on 0, mA2 on 1, mB1 on 2, final payload 12. -/
theorem dispatch_phase_priority_order_witness :
    (mA1.moduleCategory = eModule.A ∧ mA2.moduleCategory = eModule.A ∧
     mB1.moduleCategory = eModule.B ∧ mA1.priority = 1 ∧ mA2.priority = 2 ∧
     mB1.priority = 1 ∧ mA1.run ⟨0⟩ = some ⟨1⟩ ∧ mA2.run ⟨1⟩ = some ⟨2⟩ ∧
     mB1.run ⟨2⟩ = some ⟨12⟩) ∧
    (dispatchTrace phaseOrder [mA1, mA2, mB1] ⟨0⟩ =
       [(mA1.name, ⟨0⟩), (mA2.name, ⟨1⟩), (mB1.name, ⟨2⟩)] ∧
     dispatchQuery phaseOrder [mA1, mA2, mB1] ⟨0⟩ = some ⟨12⟩) :=
  ⟨⟨rfl, rfl, rfl, rfl, rfl, rfl, rfl, rfl, rfl⟩,
   dispatch_phase_priority_order mA1 mA2 mB1 ⟨0⟩ ⟨1⟩ ⟨2⟩ ⟨12⟩
     rfl rfl rfl rfl rfl rfl rfl rfl rfl⟩

/-- Running a plan that reaches an aborting call yields null. -/
theorem runPlan_append_abort (post : List (eModule × IModule)) (ph : eModule)
    (m : IModule) :
    ∀ (pre : List (eModule × IModule)) (q0 q : IQuery),
      runPlan pre q0 = some q → m.exec ph q = none →
      runPlan (pre ++ (ph, m) :: post) q0 = none := by
  intro pre
  induction pre with
  | nil =>
    intro q0 q hpre habort
    have hq : q0 = q := by simpa [runPlan] using hpre
    subst hq
    simp [runPlan, habort]
  | cons s rest ih =>
    intro q0 q hpre habort
    rw [List.cons_append, runPlan]
    rw [runPlan] at hpre
    cases hstep : s.2.exec s.1 q0 with
    | none => simp [hstep] at hpre
    | some q1 =>
      rw [hstep] at hpre
      simp only [hstep]
      exact ih q1 q hpre habort

/-- The trace of a plan that reaches an aborting call ends at that call. -/
theorem tracePlan_append_abort (post : List (eModule × IModule)) (ph : eModule)
    (m : IModule) :
    ∀ (pre : List (eModule × IModule)) (q0 q : IQuery),
      runPlan pre q0 = some q → m.exec ph q = none →
      tracePlan (pre ++ (ph, m) :: post) q0 = tracePlan pre q0 ++ [(m.name, q)] := by
  intro pre
  induction pre with
  | nil =>
    intro q0 q hpre habort
    have hq : q0 = q := by simpa [runPlan] using hpre
    subst hq
    simp [tracePlan, habort]
  | cons s rest ih =>
    intro q0 q hpre habort
    rw [List.cons_append, tracePlan]
    rw [runPlan] at hpre
    cases hstep : s.2.exec s.1 q0 with
    | none => rw [hstep] at hpre; exact absurd hpre (by simp)
    | some q1 =>
      rw [hstep] at hpre
      rw [tracePlan, hstep]
      simp [ih q1 q hpre habort]

/-- Claim C3: if the dispatch plan of a query cycle reaches a call whose exec
returns null, the trace stops at that call — no later instance of the same
phase and no instance of any later phase is invoked — and the query cycle is
aborted (null overall result). -/
theorem exec_null_aborts_pipeline (phases : List eModule)
    (attached : List IModule) (pre post : List (eModule × IModule))
    (ph : eModule) (m : IModule) (q0 q : IQuery)
    (hplan : phasePlan phases attached = pre ++ (ph, m) :: post)
    (hpre : runPlan pre q0 = some q)
    (habort : m.exec ph q = none) :
    dispatchTrace phases attached q0 = tracePlan pre q0 ++ [(m.name, q)] ∧
    dispatchQuery phases attached q0 = none := by
  constructor
  · rw [dispatchTrace, hplan]
    exact tracePlan_append_abort post ph m pre q0 q hpre habort
  · rw [dispatchQuery, hplan]
    exact runPlan_append_abort post ph m pre q0 q hpre habort

/-- Witness for C3: with phases [A] and attached modules [mAbort, mA2], the
plan is [(A, mAbort), (A, mA2)]; mAbort returns null on payload 0, so the
trace is only mAbort's call and mA2 is never invoked. -/
theorem exec_null_aborts_pipeline_witness :
    (phasePlan [eModule.A] [mAbort, mA2] =
       [] ++ (eModule.A, mAbort) :: [(eModule.A, mA2)] ∧
     runPlan [] ⟨0⟩ = some ⟨0⟩ ∧
     mAbort.exec eModule.A ⟨0⟩ = none) ∧
    (dispatchTrace [eModule.A] [mAbort, mA2] ⟨0⟩ =
       tracePlan [] ⟨0⟩ ++ [(mAbort.name, ⟨0⟩)] ∧
     dispatchQuery [eModule.A] [mAbort, mA2] ⟨0⟩ = none) :=
  ⟨⟨rfl, rfl, rfl⟩,
   exec_null_aborts_pipeline [eModule.A] [mAbort, mA2] []
     [(eModule.A, mA2)] eModule.A mAbort ⟨0⟩ ⟨0⟩ rfl rfl rfl⟩

/-- A name in the active set after a startup step was there before, or belongs
to the stepped prototype and that prototype's init
succeeded. -/
theorem startupStep_active_name (st : StartupState) (p : IModule) (x : String)
    (hx : x ∈ (startupStep st p).active.map IModule.name) :
    x ∈ st.active.map IModule.name ∨ (x = p.name ∧ p.initResult = 0) := by
  by_cases hi : p.initResult ≠ 0
  · rw [startupStep, if_pos hi] at hx
    exact Or.inl hx
  · rw [startupStep, if_neg hi] at hx
    push_neg at hi
    cases hfac : (p.listen 80).2 with
    | none =>
      rw [hfac] at hx
      simp at hx
      rcases hx with hx | hx
      · exact Or.inl (by simpa using hx)
      · exact Or.inr ⟨hx, hi⟩
    | some f =>
      rw [hfac] at hx
      by_cases hdup : st.bindings.any (fun b => b.1 == (p.listen 80).1)
      · simp [hdup] at hx
        exact Or.inl (by simpa using hx)
      · simp [hdup] at hx
        rcases hx with hx | hx
        · exact Or.inl (by simpa using hx)
        · exact Or.inr ⟨hx, hi⟩

/-- A name among the listen calls after a startup step was there before, or
belongs to the stepped prototype and that prototype's init succeeded. -/
theorem startupStep_listenCalled_name (st : StartupState) (p : IModule)
    (x : String) (hx : x ∈ (startupStep st p).listenCalled) :
    x ∈ st.listenCalled ∨ (x = p.name ∧ p.initResult = 0) := by
  by_cases hi : p.initResult ≠ 0
  · rw [startupStep, if_pos hi] at hx
    exact Or.inl hx
  · rw [startupStep, if_neg hi] at hx
    push_neg at hi
    cases hfac : (p.listen 80).2 with
    | none =>
      rw [hfac] at hx
      simp at hx
      rcases hx with hx | hx
      · exact Or.inl hx
      · exact Or.inr ⟨hx, hi⟩
    | some f =>
      rw [hfac] at hx
      by_cases hdup : st.bindings.any (fun b => b.1 == (p.listen 80).1)
      · simp [hdup] at hx
        rcases hx with hx | hx
        · exact Or.inl hx
        · exact Or.inr ⟨hx, hi⟩
      · simp [hdup] at hx
        rcases hx with hx | hx
        · exact Or.inl hx
        · exact Or.inr ⟨hx, hi⟩

/-- A startup step never removes a recorded listen call. -/
theorem startupStep_listenCalled_mono (st : StartupState) (p : IModule)
    (x : String) (hx : x ∈ st.listenCalled) :
    x ∈ (startupStep st p).listenCalled := by
  by_cases hi : p.initResult ≠ 0
  · rw [startupStep, if_pos hi]
    exact hx
  · rw [startupStep, if_neg hi]
    cases hfac : (p.listen 80).2 with
    | none => simp [hx]
    | some f =>
      by_cases hdup : st.bindings.any (fun b => b.1 == (p.listen 80).1) <;>
        simp [hdup, hx]

/-- A startup step on a prototype whose init succeeds records its listen
call. -/
theorem startupStep_listenCalled_self (st : StartupState) (p : IModule)
    (hi : p.initResult = 0) :
    p.name ∈ (startupStep st p).listenCalled := by
  rw [startupStep, if_neg (by simp [hi])]
  cases hfac : (p.listen 80).2 with
  | none => simp
  | some f =>
    by_cases hdup : st.bindings.any (fun b => b.1 == (p.listen 80).1) <;>
      simp [hdup]

/-- Over a whole startup fold, an active name comes from the initial state or
from a prototype of the list whose init succeeded. -/
theorem startup_fold_active_name (l : List IModule) :
    ∀ (st : StartupState) (x : String),
      x ∈ (l.foldl startupStep st).active.map IModule.name →
      x ∈ st.active.map IModule.name ∨
        ∃ p, p ∈ l ∧ x = p.name ∧ p.initResult = 0 := by
  induction l with
  | nil => intro st x hx; exact Or.inl hx
  | cons a as ih =>
    intro st x hx
    rcases ih (startupStep st a) x hx with h | ⟨p, hp, hn, h0⟩
    · rcases startupStep_active_name st a x h with h2 | ⟨hn, h0⟩
      · exact Or.inl h2
      · exact Or.inr ⟨a, List.mem_cons_self a as, hn, h0⟩
    · exact Or.inr ⟨p, List.mem_cons_of_mem a hp, hn, h0⟩

/-- Over a whole startup fold, a recorded listen call comes from the initial
state or from a prototype of the list whose init succeeded. -/
theorem startup_fold_listenCalled_name (l : List IModule) :
    ∀ (st : StartupState) (x : String),
      x ∈ (l.foldl startupStep st).listenCalled →
      x ∈ st.listenCalled ∨ ∃ p, p ∈ l ∧ x = p.name ∧ p.initResult = 0 := by
  induction l with
  | nil => intro st x hx; exact Or.inl hx
  | cons a as ih =>
    intro st x hx
    rcases ih (startupStep st a) x hx with h | ⟨p, hp, hn, h0⟩
    · rcases startupStep_listenCalled_name st a x h with h2 | ⟨hn, h0⟩
      · exact Or.inl h2
      · exact Or.inr ⟨a, List.mem_cons_self a as, hn, h0⟩
    · exact Or.inr ⟨p, List.mem_cons_of_mem a hp, hn, h0⟩

/-- A whole startup fold never removes a recorded listen call. -/
theorem startup_fold_listenCalled_mono (l : List IModule) :
    ∀ (st : StartupState) (x : String), x ∈ st.listenCalled →
      x ∈ (l.foldl startupStep st).listenCalled := by
  induction l with
  | nil => intro st x hx; exact hx
  | cons a as ih =>
    intro st x hx
    rw [List.foldl_cons]
    exact ih (startupStep st a) x (startupStep_listenCalled_mono st a x hx)

/-- Over a whole startup fold, every prototype of the list whose init succeeds
gets its listen call recorded. -/
theorem startup_fold_listenCalled_self (l : List IModule) :
    ∀ (st : StartupState) (q : IModule), q ∈ l → q.initResult = 0 →
      q.name ∈ (l.foldl startupStep st).listenCalled := by
  induction l with
  | nil => intro st q hq; exact absurd hq (List.not_mem_nil q)
  | cons a as ih =>
    intro st q hq h0
    rcases List.mem_cons.mp hq with hq | hq
    · subst hq
      rw [List.foldl_cons]
      exact startup_fold_listenCalled_mono as (startupStep st q) q.name
        (startupStep_listenCalled_self st q h0)
    · rw [List.foldl_cons]
      exact ih (startupStep st a) q hq h0

/-- Cloning, attaching and client binding preserve the module's name, so the
instances prepared for a connection carry exactly the names of the active
prototypes. -/
theorem cloneAll_names (proc c : Nat) :
    ∀ (fid : Nat) (l : List IModule),
      (cloneAll proc c fid l).map IModule.name = l.map IModule.name := by
  intro fid l
  induction l generalizing fid with
  | nil => rfl
  | cons a as ih =>
    rw [cloneAll, List.map_cons, List.map_cons, ih]
    have hname : (setClient (attachModule (cloneModule a fid) proc) c).name
        = a.name := by
      rw [setClient, attachModule]
      split <;> rfl
    rw [hname]

/-- Claim C6: a prototype whose init returns nonzero (every prototype named
like p fails, per hfail) is excluded from the active set, its listen is never
called, and no connection ever receives a clone of it; a prototype whose init
returns zero proceeds (its listen is called). -/
theorem init_failure_excluded (l : List IModule) (p q : IModule)
    (proc c fid : Nat)
    (hfail : ∀ r ∈ l, r.name = p.name → r.initResult ≠ 0)
    (hq : q ∈ l) (hq0 : q.initResult = 0) :
    p.name ∉ (startup l).active.map IModule.name ∧
    p.name ∉ (startup l).listenCalled ∧
    p.name ∉ (prepareConnection (startup l) proc c fid).map IModule.name ∧
    q.name ∈ (startup l).listenCalled := by
  have hact : p.name ∉ (startup l).active.map IModule.name := by
    intro hx
    rcases startup_fold_active_name l _ p.name hx with h | ⟨r, hr, hn, h0⟩
    · simp at h
    · exact hfail r hr hn.symm h0
  refine ⟨hact, ?_, ?_, ?_⟩
  · intro hx
    rcases startup_fold_listenCalled_name l _ p.name hx with h | ⟨r, hr, hn, h0⟩
    · simp at h
    · exact hfail r hr hn.symm h0
  · rw [prepareConnection, cloneAll_names]
    exact hact
  · exact startup_fold_listenCalled_self l _ q hq hq0

/-- Witness for C6: loading [mBadInit, mA1] (mBadInit's init returns 5, mA1's
returns 0) keeps mBadInit out of the active set, the listen calls and the
connection clones, while mA1's listen is called. -/
theorem init_failure_excluded_witness :
    mBadInit.name ∉ (startup [mBadInit, mA1]).active.map IModule.name ∧
    mBadInit.name ∉ (startup [mBadInit, mA1]).listenCalled ∧
    mBadInit.name ∉
      (prepareConnection (startup [mBadInit, mA1]) 1 2 3).map IModule.name ∧
    mA1.name ∈ (startup [mBadInit, mA1]).listenCalled :=
  init_failure_excluded [mBadInit, mA1] mBadInit mA1 1 2 3 (by decide)
    (List.mem_cons_of_mem mBadInit (List.mem_cons_self mA1 [])) rfl

/-- Claim C7: when two prototypes both request the same non-default port, the
registry keeps the first one's (port, builder) binding, rejects the second
registration with ConfigurationConflict, and registers no binding for the
second, so the first listener remains the only one on that port. -/
theorem duplicate_port_conflict (p1 p2 : IModule) (r f1 f2 : Nat)
    (h1 : p1.initResult = 0) (h2 : p2.initResult = 0)
    (hl1 : p1.listenReq = some (r, f1)) (hl2 : p2.listenReq = some (r, f2))
    (hr : r ≠ 80) :
    (startup [p1, p2]).bindings = [(r, f1)] ∧
    (startup [p1, p2]).conflicts = [p2.name] := by
  have hstep1 : startupStep { active := [], bindings := [], conflicts := [],
                              listenCalled := [] } p1 =
      { active := [p1], bindings := [(r, f1)], conflicts := [],
        listenCalled := [p1.name] } := by
    rw [startupStep, if_neg (by simp [h1])]
    simp [IModule.listen, hl1]
  have hstep2 : startupStep { active := [p1], bindings := [(r, f1)],
                              conflicts := [],
                              listenCalled := [p1.name] } p2 =
      { active := [p1], bindings := [(r, f1)], conflicts := [p2.name],
        listenCalled := [p1.name, p2.name] } := by
    rw [startupStep, if_neg (by simp [h2])]
    simp [IModule.listen, hl2]
  have hstart : startup [p1, p2] =
      { active := [p1], bindings := [(r, f1)], conflicts := [p2.name],
        listenCalled := [p1.name, p2.name] } := by
    rw [startup, List.foldl_cons, hstep1, List.foldl_cons, hstep2]
    rfl
  exact ⟨by rw [hstart], by rw [hstart]⟩

/-- Witness for C7: mListen1 and mListen2 both request port 8080 (builders 7
and 9); startup keeps mListen1's binding only and rejects mListen2 with a
ConfigurationConflict. -/
theorem duplicate_port_conflict_witness :
    (mListen1.initResult = 0 ∧ mListen2.initResult = 0 ∧
     mListen1.listenReq = some (8080, 7) ∧
     mListen2.listenReq = some (8080, 9) ∧ (8080 : Nat) ≠ 80) ∧
    ((startup [mListen1, mListen2]).bindings = [(8080, 7)] ∧
     (startup [mListen1, mListen2]).conflicts = [mListen2.name]) :=
  ⟨⟨rfl, rfl, rfl, rfl, by decide⟩,
   duplicate_port_conflict mListen1 mListen2 8080 7 9 rfl rfl rfl rfl
     (by decide)⟩

/-- In this embedding, the port a module requests: the port component of its
listener request, when it has one. -/
def requestedPort (m : IModule) : Option Nat :=
  m.listenReq.map Prod.fst

/-- Claim C9: a module whose listen returns a null builder and leaves the port
argument at the default 80 gets no (port, builder) pair registered by a
startup step (no listening socket is opened for it); conversely, when listen
returns a non-null builder, the port argument holds the module's requested
port. -/
theorem listen_default_no_registration (p p2 : IModule) (st : StartupState)
    (port0 f : Nat)
    (hnull : p.listen 80 = (80, none))
    (hsome : (p2.listen port0).2 = some f) :
    (startupStep st p).bindings = st.bindings ∧
    requestedPort p2 = some ((p2.listen port0).1) := by
  constructor
  · have hn : (p.listen 80).2 = none := by rw [hnull]
    by_cases hi : p.initResult ≠ 0
    · rw [startupStep, if_pos hi]
    · rw [startupStep, if_neg hi, hn]
  · cases hreq : p2.listenReq with
    | none => simp [IModule.listen, hreq] at hsome
    | some rf => simp [IModule.listen, requestedPort, hreq]

/-- Witness for C9: mPass requests no listener (listen leaves port 80, null
builder), so a step on it registers nothing; mListen1's listen returns
builder 7 with the port argument holding its requested port 8080. -/
theorem listen_default_no_registration_witness :
    (mPass.listen 80 = (80, none) ∧ (mListen1.listen 80).2 = some 7) ∧
    ((startupStep { active := [], bindings := [(3, 5)], conflicts := [],
                    listenCalled := [] } mPass).bindings = [(3, 5)] ∧
     requestedPort mListen1 = some ((mListen1.listen 80).1)) :=
  ⟨⟨rfl, rfl⟩,
   listen_default_no_registration mPass mListen1
     { active := [], bindings := [(3, 5)], conflicts := [],
       listenCalled := [] } 80 7 rfl rfl⟩

end Apirate
